import Mathlib

/- Shallow embedding of the slight run command (src/slight/src/commands/run.rs):
   the capability host composition engine.  Pure Rust control flow is translated
   directly; the runtime collaborators that are not part of this file
   (StateTable, Builder, the capability resources, the wasm engine, the shutdown
   signal) are modelled from the spec where noted.  Fallible Rust code returning
   anyhow::Result is embedded as Except; a panic (unwrap/expect) is a distinct
   error constructor.  The shared Arc<Mutex<StateTable>> is embedded by explicit
   state passing: every function returns the table it leaves behind, also on
   failure, since mutations made before a bail persist in the shared table. -/

/-- One capability declaration from the configuration file: a name string such
as "kv.filesystem" or "http" (slightfile Capability, field name). -/
structure Capability where
  name : String
deriving DecidableEq, Repr

/-- The configuration file (TomlFile): an optional spec version string, an
optional list of capability declarations and an optional secret store
descriptor.  The three fields are exactly the ones run.rs reads. -/
structure TomlFile where
  specversion : Option String
  capability : Option (List Capability)
  secret_store : Option String
deriving DecidableEq, Repr

/-- The fixed, closed set of capability kinds of the composition core. -/
inductive ResourceKind where
  | events
  | kv
  | mq
  | lockd
  | pubsub
  | configs
  | http
deriving DecidableEq, Repr

/-- Modelled from the spec: a type-erased resource instance stored in the
Resource Table.  The spec (section 9) recommends a tagged variant over the
closed kind set in place of the Rust trait-object downcast; each variant
carries the state its Rust constructor receives: the implementor name for the
BasicState-built kinds, and for the async-serving kinds the fact of having
adopted a secondary instantiation (update_state having been called). -/
inductive ResourceValue where
  | events (adopted : Bool)
  | kv (implementor : String)
  | mq (implementor : String)
  | lockd (implementor : String)
  | pubsub (implementor : String)
  | configs (implementor : String)
  | http (adopted : Bool)
deriving DecidableEq, Repr

/-- The capability kind of a stored resource value (the type a Rust downcast
would test against). -/
def kindOf : ResourceValue → ResourceKind
  | ResourceValue.events _ => ResourceKind.events
  | ResourceValue.kv _ => ResourceKind.kv
  | ResourceValue.mq _ => ResourceKind.mq
  | ResourceValue.lockd _ => ResourceKind.lockd
  | ResourceValue.pubsub _ => ResourceKind.pubsub
  | ResourceValue.configs _ => ResourceKind.configs
  | ResourceValue.http _ => ResourceKind.http

/-- Modelled from the spec: the shared Resource Table (StateTable), a mapping
from canonical scheme key to a type-erased resource instance, order
irrelevant.  Embedded as an association list. -/
abbrev StateTable := List (String × ResourceValue)

/-- Modelled from the spec: storing a resource under its canonical scheme key
during linking; a second link under the same key replaces the earlier entry
(spec section 4.3: a duplicate kind overwrites rather than duplicates). -/
def tableSet (t : StateTable) (key : String) (v : ResourceValue) : StateTable :=
  (key, v) :: t.filter (fun p => p.1 != key)

/-- A fatal outcome of the run: bail is an error result (anyhow bail!), panic
is a fatal assertion (Option::unwrap or expect). -/
inductive RunError where
  | bail (msg : String)
  | panic (msg : String)
deriving DecidableEq, Repr

/-- KV_HOST_IMPLEMENTORS from run.rs. -/
def KV_HOST_IMPLEMENTORS : List String := ["kv.filesystem", "kv.azblob", "kv.awsdynamodb"]

/-- MQ_HOST_IMPLEMENTORS from run.rs. -/
def MQ_HOST_IMPLEMENTORS : List String := ["mq.filesystem", "mq.azsbus"]

/-- LOCKD_HOST_IMPLEMENTORS from run.rs. -/
def LOCKD_HOST_IMPLEMENTORS : List String := ["lockd.etcd"]

/-- PUBSUB_HOST_IMPLEMENTORS from run.rs. -/
def PUBSUB_HOST_IMPLEMENTORS : List String := ["pubsub.confluent_apache_kafka"]

/-- CONFIGS_HOST_IMPLEMENTORS from run.rs. -/
def CONFIGS_HOST_IMPLEMENTORS : List String := ["configs.usersecrets", "configs.envvars"]

/-- The eleven capability names build_store_instance recognizes. -/
def SUPPORTED_NAMES : List String :=
  ["configs.usersecrets", "configs.envvars", "events", "kv.filesystem", "kv.azblob",
   "kv.awsdynamodb", "mq.filesystem", "mq.azsbus", "lockd.etcd",
   "pubsub.confluent_apache_kafka", "http"]

/-- The bail message of the kv arm of build_store_instance, verbatim. -/
def kvSecretStoreMsg : String :=
  "the kv capability requires a secret store of some type (i.e., envvars, or usersecrets) specified in your config file so it knows where to grab, say, the AZURE_STORAGE_ACCOUNT, and AZURE_STORAGE_KEY from."

/-- The bail message of the mq arm of build_store_instance, verbatim. -/
def mqSecretStoreMsg : String :=
  "the mq capability requires a secret store of some type (i.e., envvars, or usersecrets) specified in your config file so it knows where to grab the AZURE_SERVICE_BUS_NAMESPACE, AZURE_POLICY_NAME, and AZURE_POLICY_KEY from."

/-- The bail message of the lockd arm of build_store_instance, verbatim. -/
def lockdSecretStoreMsg : String :=
  "the lockd capability requires a secret store of some type (i.e., envvars, or usersecrets) specified in your config file so it knows where to grab the ETCD_ENDPOINT."

/-- The bail message of the pubsub arm of build_store_instance, verbatim from
the source.  Note it is letter for letter the mq arm's message, saying the mq
capability and the message-queue credential fields. -/
def pubsubSecretStoreMsg : String :=
  "the mq capability requires a secret store of some type (i.e., envvars, or usersecrets) specified in your config file so it knows where to grab the AZURE_SERVICE_BUS_NAMESPACE, AZURE_POLICY_NAME, and AZURE_POLICY_KEY from."

/-- The bail message of the default arm of build_store_instance, verbatim. -/
def invalidUrlMsg : String :=
  "invalid url: currently slight only supports 'configs.usersecrets', 'configs.envvars', 'events', 'kv.filesystem', 'kv.azblob', 'kv.awsdynamodb', 'mq.filesystem', 'mq.azsbus', 'lockd.etcd', 'pubsub.confluent_apache_kafka', and 'http' schemes"

/-- The bail message of the unsupported spec version branch, verbatim. -/
def unsupportedSpecMsg : String := "unsupported toml spec version"

/-- The message of the panic raised by Option::unwrap on a None field. -/
def unwrapNoneMsg : String := "called Option::unwrap() on a None value"

/-- One arm of the match in build_store_instance: classify a declared
capability name, check its secret store prerequisite, and produce the
canonical scheme key and constructed resource, or the bail error.  The arms
are in the source order: events, kv, mq, lockd, pubsub, configs, http,
default. -/
def linkOne (secret_store : Option String) (name : String) :
    Except RunError (String × ResourceValue) :=
  if name = "events" then
    Except.ok ("events", ResourceValue.events false)
  else if name ∈ KV_HOST_IMPLEMENTORS then
    match secret_store with
    | some _ => Except.ok ("kv", ResourceValue.kv name)
    | none => Except.error (RunError.bail kvSecretStoreMsg)
  else if name ∈ MQ_HOST_IMPLEMENTORS then
    match secret_store with
    | some _ => Except.ok ("mq", ResourceValue.mq name)
    | none => Except.error (RunError.bail mqSecretStoreMsg)
  else if name ∈ LOCKD_HOST_IMPLEMENTORS then
    match secret_store with
    | some _ => Except.ok ("lockd", ResourceValue.lockd name)
    | none => Except.error (RunError.bail lockdSecretStoreMsg)
  else if name ∈ PUBSUB_HOST_IMPLEMENTORS then
    match secret_store with
    | some _ => Except.ok ("pubsub", ResourceValue.pubsub name)
    | none => Except.error (RunError.bail pubsubSecretStoreMsg)
  else if name ∈ CONFIGS_HOST_IMPLEMENTORS then
    Except.ok ("configs", ResourceValue.configs name)
  else if name = "http" then
    Except.ok ("http", ResourceValue.http false)
  else
    Except.error (RunError.bail invalidUrlMsg)

/-- The for loop of build_store_instance over the declared capabilities:
resolve and link in declaration order.  Links made before a bail persist in
the shared table, so the table is returned in the error case too. -/
def linkAll (secret_store : Option String) (caps : List Capability) (t : StateTable) :
    StateTable × Except RunError Unit :=
  match caps with
  | [] => (t, Except.ok ())
  | c :: rest =>
    match linkOne secret_store c.name with
    | Except.error e => (t, Except.error e)
    | Except.ok kv => linkAll secret_store rest (tableSet t kv.1 kv.2)

/-- Modelled from the spec: the Builder returned by a successful
build_store_instance, a ready-to-instantiate environment; we record the
capability links it carries.  Ambient wasi linking carries no capability and
touches no table entry. -/
structure Builder where
  links : StateTable
deriving DecidableEq, Repr

/-- build_store_instance from run.rs: check the spec version, then resolve and
link every declared capability in order into a fresh Builder, inserting each
resource into the shared Resource Table.  Both optional fields are read with
Option::unwrap, and the capability field only inside the supported-version
branch. -/
def build_store_instance (toml : TomlFile) (t : StateTable) :
    StateTable × Except RunError Builder :=
  match toml.specversion with
  | none => (t, Except.error (RunError.panic unwrapNoneMsg))
  | some sv =>
    if sv = "0.1" then
      match toml.capability with
      | none => (t, Except.error (RunError.panic unwrapNoneMsg))
      | some caps =>
        match linkAll toml.secret_store caps t with
        | (t2, Except.ok _) => (t2, Except.ok (Builder.mk t2))
        | (t2, Except.error e) => (t2, Except.error e)
    else
      (t, Except.error (RunError.bail unsupportedSpecMsg))

/-- get_resource from run.rs: look the scheme key up in the table, panic with
a message naming the key when it is absent, panic with a distinct message when
the stored resource is not of the expected capability kind (the failed
downcast), and return the resource otherwise. -/
def get_resource (t : StateTable) (scheme_name : String) (expected : ResourceKind) :
    Except RunError ResourceValue :=
  match t.lookup scheme_name with
  | none =>
    Except.error (RunError.panic
      ("internal error: resource_map does not contain key: " ++ scheme_name))
  | some v =>
    if kindOf v = expected then Except.ok v
    else
      Except.error (RunError.panic
        ("internal error: resource map contains key " ++ scheme_name ++ " but can't downcast"))

/-- Modelled from the spec: a resource adopting a secondary instantiation
(Events::update_state / Http::update_state), recorded by setting the adopted
flag of the async-serving value. -/
def adoptValue : ResourceValue → ResourceValue
  | ResourceValue.events _ => ResourceValue.events true
  | ResourceValue.http _ => ResourceValue.http true
  | v => v

/-- The table after update_state on the resource stored under the given key:
that entry's state is replaced in place, no entry is added or removed. -/
def update_state (t : StateTable) (key : String) : StateTable :=
  t.map (fun p => if p.1 = key then (p.1, adoptValue p.2) else p)

/-- The observable events of one run of handle_run, in order. -/
inductive RunEvent where
  | primaryBuilt
  | secondaryBuilt (cap : String)
  | adopted (cap : String)
  | entryPointCalled
  | awaitedShutdown
  | closedHttp
deriving DecidableEq, Repr

/-- One dual-instantiation step of handle_run for an async capability: build a
second environment of the same module against the same shared table, fetch the
already-linked resource of that kind, and hand it the secondary instantiation
via update_state. -/
def secondaryStep (toml : TomlFile) (cap : String) (ek : ResourceKind) (t : StateTable) :
    StateTable × List RunEvent × Except RunError Unit :=
  match build_store_instance toml t with
  | (t1, Except.error e) => (t1, [], Except.error e)
  | (t1, Except.ok _) =>
    match get_resource t1 cap ek with
    | Except.error e => (t1, [RunEvent.secondaryBuilt cap], Except.error e)
    | Except.ok _ =>
      (update_state t1 cap,
       [RunEvent.secondaryBuilt cap, RunEvent.adopted cap],
       Except.ok ())

/-- handle_run from run.rs: build the primary environment, read the capability
list (Option::unwrap), run the dual-instantiation step for events and for http
when declared, call the module entry point _start to completion, and when http
is declared await the external shutdown signal and close the http resource.
The wasm engine, the _start call and the shutdown signal are external
collaborators modelled from the spec as trace events; the run's observable
behaviour is the final shared table and, on success, the ordered event
trace. -/
def handle_run (toml : TomlFile) : StateTable × Except RunError (List RunEvent) :=
  match build_store_instance toml [] with
  | (t0, Except.error e) => (t0, Except.error e)
  | (t0, Except.ok _) =>
    match toml.capability with
    | none => (t0, Except.error (RunError.panic unwrapNoneMsg))
    | some caps =>
      match (if caps.any (fun c => c.name == "events") then
               secondaryStep toml "events" ResourceKind.events t0
             else (t0, [], Except.ok ())) with
      | (t1, _, Except.error e) => (t1, Except.error e)
      | (t1, tr1, Except.ok _) =>
        match (if caps.any (fun c => c.name == "http") then
                 secondaryStep toml "http" ResourceKind.http t1
               else (t1, [], Except.ok ())) with
        | (t2, _, Except.error e) => (t2, Except.error e)
        | (t2, tr2, Except.ok _) =>
          if caps.any (fun c => c.name == "http") then
            match get_resource t2 "http" ResourceKind.http with
            | Except.error e => (t2, Except.error e)
            | Except.ok _ =>
              (t2, Except.ok (RunEvent.primaryBuilt ::
                (tr1 ++ tr2 ++
                 [RunEvent.entryPointCalled, RunEvent.awaitedShutdown, RunEvent.closedHttp])))
          else
            (t2, Except.ok (RunEvent.primaryBuilt ::
              (tr1 ++ tr2 ++ [RunEvent.entryPointCalled])))

/-- Boolean prefix test on character lists, used to state that an error
message contains a given word. -/
def isPrefixB : List Char → List Char → Bool
  | [], _ => true
  | _ :: _, [] => false
  | a :: as, b :: bs => a == b && isPrefixB as bs

/-- Boolean substring test on character lists. -/
def isInfixB (needle : List Char) : List Char → Bool
  | [] => isPrefixB needle []
  | b :: bs => isPrefixB needle (b :: bs) || isInfixB needle bs

/-- The four supported names whose resolution needs no secret store: the
events and http arms and the configs arm of build_store_instance are the ones
that never read toml.secret_store. -/
def NO_SECRET_STORE_NAMES : List String :=
  ["events", "http", "configs.usersecrets", "configs.envvars"]

/-- Whether resolving one declared capability name succeeds. -/
def linkResolves (ss : Option String) (name : String) : Bool :=
  match linkOne ss name with
  | Except.ok _ => true
  | Except.error _ => false

/-- Looking up the key just stored by tableSet yields the stored value. -/
lemma tableSet_lookup_self (t : StateTable) (k : String) (v : ResourceValue) :
    (tableSet t k v).lookup k = some v := by
  simp [tableSet, List.lookup]

/-- Filtering out one key leaves lookups of any other key unchanged. -/
lemma lookup_filter_ne (t : StateTable) (k s : String) (h : s ≠ k) :
    (t.filter (fun p => p.1 != k)).lookup s = t.lookup s := by
  induction t with
  | nil => rfl
  | cons a rest ih =>
    rcases a with ⟨a1, a2⟩
    rw [List.filter_cons]
    by_cases hk : a1 = k
    · subst hk
      simp only [bne_self_eq_false]
      have hs : (s == a1) = false := by simp [h]
      simp [List.lookup, hs, ih]
    · have hb : ((a1, a2).1 != k) = true := by simp [hk]
      simp only [hb, if_true]
      by_cases hsa : s = a1
      · subst hsa
        simp [List.lookup]
      · have hs : (s == a1) = false := by simp [hsa]
        simp [List.lookup, hs, ih]

/-- Storing under one key leaves lookups of any other key unchanged. -/
lemma tableSet_lookup_ne (t : StateTable) (k s : String) (v : ResourceValue) (h : s ≠ k) :
    (tableSet t k v).lookup s = t.lookup s := by
  have hs : (s == k) = false := by simp [h]
  simp [tableSet, List.lookup, hs, lookup_filter_ne t k s h]

/-- update_state replaces the looked-up entry by its adopted form. -/
lemma update_state_lookup_self (t : StateTable) (k : String) :
    (update_state t k).lookup k = (t.lookup k).map adoptValue := by
  induction t with
  | nil => rfl
  | cons a rest ih =>
    rcases a with ⟨a1, a2⟩
    simp only [update_state, List.map_cons] at ih ⊢
    by_cases hk : a1 = k
    · subst hk
      rw [if_pos rfl]
      simp [List.lookup]
    · rw [if_neg hk]
      have hs : (k == a1) = false := by simp [Ne.symm hk]
      simp [List.lookup, hs]
      exact ih

/-- The two panic messages of get_resource are distinct for every key, so the
absent-key condition and the failed-downcast condition are distinguishable. -/
lemma get_resource_msgs_distinct (key : String) :
    ("internal error: resource_map does not contain key: " ++ key)
      ≠ ("internal error: resource map contains key " ++ key ++ " but can't downcast") := by
  intro h
  have h2 := congrArg String.data h
  rw [String.data_append, String.data_append, String.data_append] at h2
  have h3 := congrArg (fun l => l[24]?) h2
  simp only at h3
  have hlen : 24 < ("internal error: resource map contains key ".data ++ key.data).length := by
    rw [List.length_append]
    have h42 : ("internal error: resource map contains key ".data).length = 42 := by decide
    omega
  rw [List.getElem?_append_left (by decide),
      List.getElem?_append_left hlen,
      List.getElem?_append_left (by decide)] at h3
  exact absurd h3 (by decide)

/-- C3: a configuration whose spec version is present but not "0.1" makes
build_store_instance fail at once with the unsupported-version error: no
declared capability is resolved or linked, the Resource Table is returned
exactly as it was, and no Builder environment is produced. -/
theorem unsupported_specversion_fails_immediately (toml : TomlFile) (t : StateTable)
    (sv : String) (h1 : toml.specversion = some sv) (h2 : sv ≠ "0.1") :
    build_store_instance toml t = (t, Except.error (RunError.bail unsupportedSpecMsg)) := by
  unfold build_store_instance
  rw [h1]
  simp [h2]

/-- Witness for C3: a spec version of "0.2", with no capability list at all,
fails with the unsupported-version error and an untouched table. -/
theorem unsupported_specversion_fails_immediately_witness :
    build_store_instance (TomlFile.mk (some "0.2") none none) []
      = ([], Except.error (RunError.bail unsupportedSpecMsg)) :=
  unsupported_specversion_fails_immediately (TomlFile.mk (some "0.2") none none) [] "0.2"
    rfl (by decide)

/-- C9: get_resource fails fatally with an internal-error panic naming the key
when the key is absent from the Resource Table, fails fatally with a distinct
internal-error panic when the stored resource is not of the expected
capability kind, and returns the stored resource when the kind matches. -/
theorem get_resource_spec (t : StateTable) (key : String) (ek : ResourceKind) :
    (t.lookup key = none →
      get_resource t key ek = Except.error (RunError.panic
        ("internal error: resource_map does not contain key: " ++ key))) ∧
    (∀ v, t.lookup key = some v → kindOf v ≠ ek →
      get_resource t key ek = Except.error (RunError.panic
        ("internal error: resource map contains key " ++ key ++ " but can't downcast"))) ∧
    (∀ v, t.lookup key = some v → kindOf v = ek → get_resource t key ek = Except.ok v) ∧
    ("internal error: resource_map does not contain key: " ++ key)
      ≠ ("internal error: resource map contains key " ++ key ++ " but can't downcast") := by
  refine ⟨?_, ?_, ?_, get_resource_msgs_distinct key⟩
  · intro h
    unfold get_resource
    rw [h]
  · intro v h hk
    unfold get_resource
    rw [h]
    simp [hk]
  · intro v h hk
    unfold get_resource
    rw [h]
    simp [hk]

/-- Witness for C9 on a one-entry table: an absent key panics naming the key,
a present key of the wrong kind panics with the downcast message, and a
present key of the right kind returns the resource. -/
theorem get_resource_spec_witness :
    get_resource [("kv", ResourceValue.kv "kv.filesystem")] "mq" ResourceKind.mq
      = Except.error (RunError.panic
        ("internal error: resource_map does not contain key: " ++ "mq")) ∧
    get_resource [("kv", ResourceValue.kv "kv.filesystem")] "kv" ResourceKind.mq
      = Except.error (RunError.panic
        ("internal error: resource map contains key " ++ "kv" ++ " but can't downcast")) ∧
    get_resource [("kv", ResourceValue.kv "kv.filesystem")] "kv" ResourceKind.kv
      = Except.ok (ResourceValue.kv "kv.filesystem") :=
  ⟨(get_resource_spec [("kv", ResourceValue.kv "kv.filesystem")] "mq" ResourceKind.mq).1 rfl,
   (get_resource_spec [("kv", ResourceValue.kv "kv.filesystem")] "kv" ResourceKind.mq).2.1
     (ResourceValue.kv "kv.filesystem") rfl (by decide),
   (get_resource_spec [("kv", ResourceValue.kv "kv.filesystem")] "kv" ResourceKind.kv).2.2.1
     (ResourceValue.kv "kv.filesystem") rfl rfl⟩

/-- C2, the code's behaviour at the failing input: declaring the pubsub
capability with no secret store bails with a message that is letter for
letter the mq arm's message: it says the mq capability and the message-queue
credential fields, and the word pubsub appears nowhere in it. -/
theorem pubsub_missing_secret_store_names_mq :
    build_store_instance
        (TomlFile.mk (some "0.1") (some [Capability.mk "pubsub.confluent_apache_kafka"]) none) []
      = ([], Except.error (RunError.bail pubsubSecretStoreMsg)) ∧
    pubsubSecretStoreMsg = mqSecretStoreMsg ∧
    isInfixB "pubsub".toList pubsubSecretStoreMsg.toList = false ∧
    isInfixB "the mq capability".toList pubsubSecretStoreMsg.toList = true :=
  ⟨rfl, rfl, by decide, by decide⟩

/-- C10, counterexample: a configuration with the capability field absent but
spec version "0.2" does not panic: build_store_instance bails with the
descriptive unsupported-version error before the capability list is ever
unwrapped. -/
theorem missing_capability_field_can_bail :
    (TomlFile.mk (some "0.2") none none).capability = none ∧
    handle_run (TomlFile.mk (some "0.2") none none)
      = ([], Except.error (RunError.bail unsupportedSpecMsg)) :=
  ⟨rfl, rfl⟩

/-- C10 as amended: the spec version field is unwrapped unconditionally, so
its absence always panics; the capability list is unwrapped only under spec
version "0.1", so its absence panics exactly then, and the panic happens in
place of any descriptive configuration error. -/
theorem unwrap_panics_amended (toml : TomlFile) :
    (toml.specversion = none →
      handle_run toml = ([], Except.error (RunError.panic unwrapNoneMsg))) ∧
    (toml.specversion = some "0.1" → toml.capability = none →
      handle_run toml = ([], Except.error (RunError.panic unwrapNoneMsg))) := by
  constructor
  · intro h
    unfold handle_run build_store_instance
    rw [h]
  · intro h1 h2
    unfold handle_run build_store_instance
    rw [h1, h2]
    rfl

/-- Witness for the amended C10: a configuration with no spec version panics,
and one with spec version "0.1" and no capability list panics. -/
theorem unwrap_panics_amended_witness :
    handle_run (TomlFile.mk none (some []) none)
      = ([], Except.error (RunError.panic unwrapNoneMsg)) ∧
    handle_run (TomlFile.mk (some "0.1") none none)
      = ([], Except.error (RunError.panic unwrapNoneMsg)) :=
  ⟨(unwrap_panics_amended (TomlFile.mk none (some []) none)).1 rfl,
   (unwrap_panics_amended (TomlFile.mk (some "0.1") none none)).2 rfl rfl⟩

/-- Linking two declarations that resolve to the same canonical key leaves
exactly the second resource under that key. -/
lemma linkAll_two (ss : Option String) (c1 c2 : Capability) (k : String)
    (v1 v2 : ResourceValue)
    (h1 : linkOne ss c1.name = Except.ok (k, v1))
    (h2 : linkOne ss c2.name = Except.ok (k, v2)) :
    linkAll ss [c1, c2] [] = ([(k, v2)], Except.ok ()) := by
  simp only [linkAll, h1, h2]
  simp [tableSet, List.filter]

/-- C5: two declared capability names that resolve to the same capability
kind, hence to one canonical scheme key, are both linked under that single
key: the build succeeds (the configuration is not rejected) and the Resource
Table ends with exactly one entry under the key, holding the resource of the
later declaration, the earlier having been overwritten. -/
theorem same_kind_overwrites_single_key (n1 n2 s k : String) (v1 v2 : ResourceValue)
    (h1 : linkOne (some s) n1 = Except.ok (k, v1))
    (h2 : linkOne (some s) n2 = Except.ok (k, v2)) :
    build_store_instance
        (TomlFile.mk (some "0.1") (some [Capability.mk n1, Capability.mk n2]) (some s)) []
      = ([(k, v2)], Except.ok (Builder.mk [(k, v2)])) := by
  have hl := linkAll_two (some s) (Capability.mk n1) (Capability.mk n2) k v1 v2 h1 h2
  unfold build_store_instance
  simp only []
  rw [hl]
  simp

/-- Witness for C5: the kv.filesystem and kv.azblob implementor variants both
canonicalize to the "kv" key; the table ends with the kv.azblob resource as
its only entry. -/
theorem same_kind_overwrites_single_key_witness :
    build_store_instance
        (TomlFile.mk (some "0.1")
          (some [Capability.mk "kv.filesystem", Capability.mk "kv.azblob"]) (some "usersecrets")) []
      = ([("kv", ResourceValue.kv "kv.azblob")],
         Except.ok (Builder.mk [("kv", ResourceValue.kv "kv.azblob")])) :=
  same_kind_overwrites_single_key "kv.filesystem" "kv.azblob" "usersecrets" "kv"
    (ResourceValue.kv "kv.filesystem") (ResourceValue.kv "kv.azblob") rfl rfl

/-- C6: among the supported capability names, resolution with no secret store
present succeeds for exactly events, http and the two config/secret
implementors; every other supported name requires a secret store. -/
theorem no_secret_store_required_exactly (name : String) (h : name ∈ SUPPORTED_NAMES) :
    linkResolves none name = NO_SECRET_STORE_NAMES.contains name := by
  revert name
  decide

/-- Witness for C6: events resolves with no secret store, kv.filesystem does
not. -/
theorem no_secret_store_required_exactly_witness :
    linkResolves none "events" = NO_SECRET_STORE_NAMES.contains "events" ∧
    linkResolves none "kv.filesystem" = NO_SECRET_STORE_NAMES.contains "kv.filesystem" :=
  ⟨no_secret_store_required_exactly "events" (by decide),
   no_secret_store_required_exactly "kv.filesystem" (by decide)⟩

set_option maxRecDepth 8000 in
/-- C8: every capability name outside the supported set fails resolution with
the single invalid-url error, and that error's message contains every one of
the eleven supported names. -/
theorem unrecognized_name_enumerates_supported :
    (∀ (ss : Option String) (name : String), name ∉ SUPPORTED_NAMES →
      linkOne ss name = Except.error (RunError.bail invalidUrlMsg)) ∧
    (∀ name ∈ SUPPORTED_NAMES, isInfixB name.toList invalidUrlMsg.toList = true) := by
  constructor
  · intro ss name h
    unfold linkOne
    split_ifs with h1 h2 h3 h4 h5 h6 h7
    · subst h1; exact absurd (by decide) h
    · simp [KV_HOST_IMPLEMENTORS] at h2
      rcases h2 with rfl | rfl | rfl <;> exact absurd (by decide) h
    · simp [MQ_HOST_IMPLEMENTORS] at h3
      rcases h3 with rfl | rfl <;> exact absurd (by decide) h
    · simp [LOCKD_HOST_IMPLEMENTORS] at h4
      subst h4; exact absurd (by decide) h
    · simp [PUBSUB_HOST_IMPLEMENTORS] at h5
      subst h5; exact absurd (by decide) h
    · simp [CONFIGS_HOST_IMPLEMENTORS] at h6
      rcases h6 with rfl | rfl <;> exact absurd (by decide) h
    · subst h7; exact absurd (by decide) h
    · rfl
  · decide

/-- Witness for C8: the name bogus is rejected with the invalid-url error, and
the message names, for one, the http scheme. -/
theorem unrecognized_name_enumerates_supported_witness :
    linkOne none "bogus" = Except.error (RunError.bail invalidUrlMsg) ∧
    isInfixB "http".toList invalidUrlMsg.toList = true :=
  ⟨unrecognized_name_enumerates_supported.1 none "bogus" (by decide),
   unrecognized_name_enumerates_supported.2 "http" (by decide)⟩

/-- A failing pass of the capability loop stops at the first declaration that
does not resolve, returning its error; the declarations before it have
already been linked into the shared table, and nothing after the failure is
linked. -/
lemma linkAll_error_split (ss : Option String) :
    ∀ (caps : List Capability) (t : StateTable) (e : RunError),
      (linkAll ss caps t).2 = Except.error e →
      ∃ pre c post, caps = pre ++ c :: post ∧
        (∀ c2 ∈ pre, linkResolves ss c2.name = true) ∧
        linkOne ss c.name = Except.error e ∧
        (linkAll ss caps t).1 = (linkAll ss pre t).1 := by
  intro caps
  induction caps with
  | nil =>
    intro t e h
    simp [linkAll] at h
  | cons c rest ih =>
    intro t e h
    rcases hl : linkOne ss c.name with e1 | p
    · refine ⟨[], c, rest, rfl, by simp, ?_, ?_⟩
      · simp only [linkAll, hl] at h
        simp at h
        rw [hl, h]
      · simp only [linkAll, hl]
    · simp only [linkAll, hl] at h
      obtain ⟨pre, c2, post, hcaps, hpre, herr, htab⟩ := ih (tableSet t p.1 p.2) e h
      refine ⟨c :: pre, c2, post, by rw [hcaps, List.cons_append], ?_, herr, ?_⟩
      · intro x hx
        rcases List.mem_cons.mp hx with rfl | hx2
        · simp [linkResolves, hl]
        · exact hpre x hx2
      · simp only [linkAll, hl]
        exact htab

/-- C1, counterexample to resolution completing before any linking: with
capabilities [events, bogus] the build aborts on the unrecognized second
declaration, yet the events capability was already linked, so the shared
Resource Table is not as it was before the call. -/
theorem resolution_failure_after_partial_linking :
    (build_store_instance (TomlFile.mk (some "0.1")
        (some [Capability.mk "events", Capability.mk "bogus"]) none) []).2
      = Except.error (RunError.bail invalidUrlMsg) ∧
    (build_store_instance (TomlFile.mk (some "0.1")
        (some [Capability.mk "events", Capability.mk "bogus"]) none) []).1
      = [("events", ResourceValue.events false)] ∧
    ([("events", ResourceValue.events false)] : StateTable) ≠ [] :=
  ⟨rfl, rfl, by decide⟩

/-- C1 as amended: a capability declaration that fails to resolve aborts the
whole build at that point: the error is the failing declaration's own, no
Builder environment is produced, no declaration after the failing one is
resolved or linked, but the declarations before it were already resolved and
linked one by one, so the shared Resource Table ends exactly as linking the
preceding prefix leaves it (not necessarily as it was before the call). -/
theorem resolution_failure_aborts_after_prefix (toml : TomlFile) (caps : List Capability)
    (t : StateTable) (e : RunError)
    (hsv : toml.specversion = some "0.1") (hcap : toml.capability = some caps)
    (h : (build_store_instance toml t).2 = Except.error e) :
    ∃ pre c post, caps = pre ++ c :: post ∧
      (∀ c2 ∈ pre, linkResolves toml.secret_store c2.name = true) ∧
      linkOne toml.secret_store c.name = Except.error e ∧
      (build_store_instance toml t).1 = (linkAll toml.secret_store pre t).1 := by
  have hb : build_store_instance toml t =
      (match linkAll toml.secret_store caps t with
       | (t2, Except.ok _) => (t2, Except.ok (Builder.mk t2))
       | (t2, Except.error e1) => (t2, Except.error e1)) := by
    unfold build_store_instance
    rw [hsv, hcap]
    simp
  rcases hr : linkAll toml.secret_store caps t with ⟨t2, r⟩
  cases r with
  | ok u =>
    rw [hb, hr] at h
    simp at h
  | error e1 =>
    rw [hb, hr] at h
    simp at h
    have h2 : (linkAll toml.secret_store caps t).2 = Except.error e := by
      rw [hr, h]
    obtain ⟨pre, c, post, hcaps, hpre, herr, htab⟩ :=
      linkAll_error_split toml.secret_store caps t e h2
    refine ⟨pre, c, post, hcaps, hpre, herr, ?_⟩
    rw [hb, hr]
    simp only []
    rw [← htab, hr]

/-- Witness for the amended C1 at the counterexample configuration: the
failing build splits [events, bogus] into a linked prefix and the failing
declaration, and the final table is the prefix's. -/
theorem resolution_failure_aborts_after_prefix_witness :
    ∃ pre c post,
      [Capability.mk "events", Capability.mk "bogus"] = pre ++ c :: post ∧
      (∀ c2 ∈ pre, linkResolves none c2.name = true) ∧
      linkOne none c.name = Except.error (RunError.bail invalidUrlMsg) ∧
      (build_store_instance (TomlFile.mk (some "0.1")
          (some [Capability.mk "events", Capability.mk "bogus"]) none) []).1
        = (linkAll none pre []).1 :=
  resolution_failure_aborts_after_prefix
    (TomlFile.mk (some "0.1") (some [Capability.mk "events", Capability.mk "bogus"]) none)
    [Capability.mk "events", Capability.mk "bogus"] [] (RunError.bail invalidUrlMsg)
    rfl rfl rfl

/-- A successful dual-instantiation step records exactly the secondary build
followed by the adoption. -/
lemma secondaryStep_ok (toml : TomlFile) (cap : String) (ek : ResourceKind)
    (t t2 : StateTable) (tr : List RunEvent) (u : Unit)
    (h : secondaryStep toml cap ek t = (t2, tr, Except.ok u)) :
    tr = [RunEvent.secondaryBuilt cap, RunEvent.adopted cap] := by
  unfold secondaryStep at h
  rcases hb : build_store_instance toml t with ⟨t1, r⟩
  rw [hb] at h
  cases r with
  | error e => simp at h
  | ok b =>
    rcases hg : get_resource t1 cap ek with e2 | v
    · simp [hg] at h
    · simp [hg] at h
      exact h.2.symm

/-- The full event trace of every successful run, as a function of whether
events and http are declared: primary build, then the dual-instantiation
steps for events and for http in that order, then the entry point, then (for
http only) the shutdown wait and the close. -/
lemma handle_run_ok_trace (toml : TomlFile) (caps : List Capability) (T : StateTable)
    (tr : List RunEvent)
    (hcap : toml.capability = some caps)
    (h : handle_run toml = (T, Except.ok tr)) :
    tr = RunEvent.primaryBuilt ::
      ((if caps.any (fun c => c.name == "events")
        then [RunEvent.secondaryBuilt "events", RunEvent.adopted "events"] else []) ++
       (if caps.any (fun c => c.name == "http")
        then [RunEvent.secondaryBuilt "http", RunEvent.adopted "http"] else []) ++
       RunEvent.entryPointCalled ::
       (if caps.any (fun c => c.name == "http")
        then [RunEvent.awaitedShutdown, RunEvent.closedHttp] else [])) := by
  unfold handle_run at h
  rcases hb : build_store_instance toml [] with ⟨t0, r0⟩
  rw [hb] at h
  cases r0 with
  | error e => simp at h
  | ok b =>
    rw [hcap] at h
    simp only [] at h
    cases hev : caps.any (fun c => c.name == "events") with
    | false =>
      rw [hev] at h
      simp only [Bool.false_eq_true, if_false] at h
      cases hht : caps.any (fun c => c.name == "http") with
      | false =>
        rw [hht] at h
        simp only [Bool.false_eq_true, if_false] at h
        simp at h
        simp [hev, hht, h.2.symm]
      | true =>
        rw [hht] at h
        simp only [if_true] at h
        rcases hs2 : secondaryStep toml "http" ResourceKind.http t0 with ⟨t2, tr2, r2⟩
        rw [hs2] at h
        cases r2 with
        | error e => simp at h
        | ok u2 =>
          have htr2 := secondaryStep_ok toml "http" ResourceKind.http t0 t2 tr2 u2 hs2
          rcases hg : get_resource t2 "http" ResourceKind.http with e3 | v3
          · simp [hg] at h
          · simp [hg] at h
            simp [hev, hht, htr2, h.2.symm]
    | true =>
      rw [hev] at h
      simp only [if_true] at h
      rcases hs1 : secondaryStep toml "events" ResourceKind.events t0 with ⟨t1, tr1, r1⟩
      rw [hs1] at h
      cases r1 with
      | error e => simp at h
      | ok u1 =>
        have htr1 := secondaryStep_ok toml "events" ResourceKind.events t0 t1 tr1 u1 hs1
        cases hht : caps.any (fun c => c.name == "http") with
        | false =>
          rw [hht] at h
          simp only [Bool.false_eq_true, if_false] at h
          simp at h
          simp [hev, hht, htr1, h.2.symm]
        | true =>
          rw [hht] at h
          simp only [if_true] at h
          rcases hs2 : secondaryStep toml "http" ResourceKind.http t1 with ⟨t2, tr2, r2⟩
          rw [hs2] at h
          cases r2 with
          | error e => simp at h
          | ok u2 =>
            have htr2 := secondaryStep_ok toml "http" ResourceKind.http t1 t2 tr2 u2 hs2
            rcases hg : get_resource t2 "http" ResourceKind.http with e3 | v3
            · simp [hg] at h
            · simp [hg] at h
              simp [hev, hht, htr1, htr2, h.2.symm]

/-- C4: in every successful run with http declared, the trace ends with the
entry point running to completion, then the wait for the external shutdown
signal, then the close of the http resource; without http (events alone
included) the trace ends at the entry point and contains no shutdown wait and
no http close. -/
theorem http_gates_shutdown_wait (toml : TomlFile) (caps : List Capability)
    (T : StateTable) (tr : List RunEvent)
    (hcap : toml.capability = some caps)
    (h : handle_run toml = (T, Except.ok tr)) :
    (caps.any (fun c => c.name == "http") = true →
      ∃ pre, tr = pre ++ [RunEvent.entryPointCalled, RunEvent.awaitedShutdown,
                          RunEvent.closedHttp]) ∧
    (caps.any (fun c => c.name == "http") = false →
      ∃ pre, tr = pre ++ [RunEvent.entryPointCalled] ∧
        RunEvent.awaitedShutdown ∉ tr ∧ RunEvent.closedHttp ∉ tr) := by
  have htr := handle_run_ok_trace toml caps T tr hcap h
  constructor
  · intro hht
    rw [hht] at htr
    cases hev : caps.any (fun c => c.name == "events") with
    | false =>
      rw [hev] at htr
      simp at htr
      exact ⟨[RunEvent.primaryBuilt, RunEvent.secondaryBuilt "http", RunEvent.adopted "http"],
        by simp [htr]⟩
    | true =>
      rw [hev] at htr
      simp at htr
      exact ⟨[RunEvent.primaryBuilt, RunEvent.secondaryBuilt "events", RunEvent.adopted "events",
              RunEvent.secondaryBuilt "http", RunEvent.adopted "http"],
        by simp [htr]⟩
  · intro hht
    rw [hht] at htr
    cases hev : caps.any (fun c => c.name == "events") with
    | false =>
      rw [hev] at htr
      simp at htr
      refine ⟨[RunEvent.primaryBuilt], by simp [htr], ?_, ?_⟩ <;> rw [htr] <;> decide
    | true =>
      rw [hev] at htr
      simp at htr
      refine ⟨[RunEvent.primaryBuilt, RunEvent.secondaryBuilt "events", RunEvent.adopted "events"],
        by simp [htr], ?_, ?_⟩ <;> rw [htr] <;> decide

/-- Witness for C4 at the http-only configuration, whose successful run's
trace is primary build, secondary build, adoption, entry point, shutdown
wait, close. -/
theorem http_gates_shutdown_wait_witness :
    (([Capability.mk "http"].any (fun c => c.name == "http") = true →
      ∃ pre, [RunEvent.primaryBuilt, RunEvent.secondaryBuilt "http", RunEvent.adopted "http",
              RunEvent.entryPointCalled, RunEvent.awaitedShutdown, RunEvent.closedHttp]
        = pre ++ [RunEvent.entryPointCalled, RunEvent.awaitedShutdown, RunEvent.closedHttp]) ∧
     ([Capability.mk "http"].any (fun c => c.name == "http") = false →
      ∃ pre, [RunEvent.primaryBuilt, RunEvent.secondaryBuilt "http", RunEvent.adopted "http",
              RunEvent.entryPointCalled, RunEvent.awaitedShutdown, RunEvent.closedHttp]
        = pre ++ [RunEvent.entryPointCalled] ∧
        RunEvent.awaitedShutdown ∉ [RunEvent.primaryBuilt, RunEvent.secondaryBuilt "http",
          RunEvent.adopted "http", RunEvent.entryPointCalled, RunEvent.awaitedShutdown,
          RunEvent.closedHttp] ∧
        RunEvent.closedHttp ∉ [RunEvent.primaryBuilt, RunEvent.secondaryBuilt "http",
          RunEvent.adopted "http", RunEvent.entryPointCalled, RunEvent.awaitedShutdown,
          RunEvent.closedHttp])) :=
  http_gates_shutdown_wait (TomlFile.mk (some "0.1") (some [Capability.mk "http"]) none)
    [Capability.mk "http"] [("http", ResourceValue.http true)]
    [RunEvent.primaryBuilt, RunEvent.secondaryBuilt "http", RunEvent.adopted "http",
     RunEvent.entryPointCalled, RunEvent.awaitedShutdown, RunEvent.closedHttp]
    rfl rfl

/-- C7: in every successful run, the trace splits at the entry-point call,
and when events (or http) is declared, the secondary build and adoption of
that capability lie strictly before the entry-point call. -/
theorem adoption_precedes_entry_point (toml : TomlFile) (caps : List Capability)
    (T : StateTable) (tr : List RunEvent)
    (hcap : toml.capability = some caps)
    (h : handle_run toml = (T, Except.ok tr)) :
    ∃ pre post, tr = pre ++ RunEvent.entryPointCalled :: post ∧
      RunEvent.entryPointCalled ∉ pre ∧
      (caps.any (fun c => c.name == "events") = true →
        RunEvent.secondaryBuilt "events" ∈ pre ∧ RunEvent.adopted "events" ∈ pre) ∧
      (caps.any (fun c => c.name == "http") = true →
        RunEvent.secondaryBuilt "http" ∈ pre ∧ RunEvent.adopted "http" ∈ pre) := by
  have htr := handle_run_ok_trace toml caps T tr hcap h
  cases hev : caps.any (fun c => c.name == "events") with
  | false =>
    cases hht : caps.any (fun c => c.name == "http") with
    | false =>
      rw [hev, hht] at htr
      simp at htr
      refine ⟨[RunEvent.primaryBuilt], [], by simp [htr], by decide, ?_, ?_⟩ <;>
        intro hx <;> rw [hx] at hev hht <;> simp_all
    | true =>
      rw [hev, hht] at htr
      simp at htr
      refine ⟨[RunEvent.primaryBuilt, RunEvent.secondaryBuilt "http", RunEvent.adopted "http"],
        [RunEvent.awaitedShutdown, RunEvent.closedHttp], by simp [htr], by decide, ?_, ?_⟩
      · intro hx
        rw [hx] at hev
        simp_all
      · intro hx
        exact ⟨by decide, by decide⟩
  | true =>
    cases hht : caps.any (fun c => c.name == "http") with
    | false =>
      rw [hev, hht] at htr
      simp at htr
      refine ⟨[RunEvent.primaryBuilt, RunEvent.secondaryBuilt "events", RunEvent.adopted "events"],
        [], by simp [htr], by decide, ?_, ?_⟩
      · intro hx
        exact ⟨by decide, by decide⟩
      · intro hx
        rw [hx] at hht
        simp_all
    | true =>
      rw [hev, hht] at htr
      simp at htr
      refine ⟨[RunEvent.primaryBuilt, RunEvent.secondaryBuilt "events", RunEvent.adopted "events",
               RunEvent.secondaryBuilt "http", RunEvent.adopted "http"],
        [RunEvent.awaitedShutdown, RunEvent.closedHttp], by simp [htr], by decide, ?_, ?_⟩
      · intro hx
        exact ⟨by decide, by decide⟩
      · intro hx
        exact ⟨by decide, by decide⟩

/-- Witness for C7 at the events-only configuration: the adoption of the
events resource appears before the entry-point call in the run's trace. -/
theorem adoption_precedes_entry_point_witness :
    ∃ pre post,
      [RunEvent.primaryBuilt, RunEvent.secondaryBuilt "events", RunEvent.adopted "events",
       RunEvent.entryPointCalled] = pre ++ RunEvent.entryPointCalled :: post ∧
      RunEvent.entryPointCalled ∉ pre ∧
      (([Capability.mk "events"].any (fun c => c.name == "events")) = true →
        RunEvent.secondaryBuilt "events" ∈ pre ∧ RunEvent.adopted "events" ∈ pre) ∧
      (([Capability.mk "events"].any (fun c => c.name == "http")) = true →
        RunEvent.secondaryBuilt "http" ∈ pre ∧ RunEvent.adopted "http" ∈ pre) :=
  adoption_precedes_entry_point
    (TomlFile.mk (some "0.1") (some [Capability.mk "events"]) none) [Capability.mk "events"]
    [("events", ResourceValue.events true)]
    [RunEvent.primaryBuilt, RunEvent.secondaryBuilt "events", RunEvent.adopted "events",
     RunEvent.entryPointCalled]
    rfl rfl
